import Mathlib

/-!
Shallow embedding of the module manager of towalink/asyncmodules
(src/asyncmodules/modulemanager.py, class ModuleManager), together with
theorems about the embedded operations.

Python values and errors are modelled by small inductive types; runtime
concerns the claims depend on (object identity, keyword-argument binding,
attribute lookup) are made explicit.  Collaborators that live outside
modulemanager.py (the Module base class, the Metadata class, the queue/loop)
are modelled from the spec where needed; every such definition is marked.
-/

namespace AsyncModules

/-- Subset of Python values appearing as method arguments and results. -/
inductive PyVal where
  | none
  | bool (b : Bool)
  | int (n : Int)
  | str (s : String)
  deriving DecidableEq, Repr

/-- Python errors relevant to the module manager.  `exception` stands for a
generic application-level error raised inside a module method (an instance of
Python's Exception class); `cancelledError` models asyncio.CancelledError,
which derives from BaseException and is not an Exception instance. -/
inductive PyErr where
  | attributeError (msg : String)
  | typeError (msg : String)
  | nameError (msg : String)
  | runtimeError (msg : String)
  | exception (msg : String)
  | cancelledError
  deriving DecidableEq, Repr

/-- Whether the error is an instance of Python's Exception class, i.e. whether
a bare `except Exception` handler catches it. -/
def PyErr.isExceptionSubclass : PyErr → Bool
  | .cancelledError => false
  | _ => true

/-- Modelled from the spec: a module is "a named unit exposing callable methods
and a readiness flag" (the Module base class is outside modulemanager.py).
`oid` models Python object identity: register_module constructs a fresh object
per registration, so distinct registry entries hold objects with distinct
identities.  `call_method` abstracts the module's method dispatch (spec 4.4:
unknown methods are tolerated silently, so it is total). -/
structure Module where
  oid : ℕ
  is_ready : Bool
  call_method : String → List (String × PyVal) → PyVal

/-- Modelled from the spec: "Metadata: provenance record for a call/event,
carrying a reference to the originating object and its name" (the Metadata
class is outside modulemanager.py).  The originating object is identified by
its object identity. -/
structure Metadata where
  source_obj : ℕ
  source_name : String
  deriving DecidableEq, Repr

/-- The ordered dictionary self._modules, as an ordered association list with
unique keys. -/
abbrev Registry := List (String × Module)

/-- Assignment d[k] = v on an OrderedDict: overwrite in place if the key is
present (keeping its position), otherwise append at the end. -/
def odSet : Registry → String → Module → Registry
  | [], k, v => [(k, v)]
  | (k', v') :: rest, k, v =>
      if k' = k then (k, v) :: rest else (k', v') :: odSet rest k v

/-- Lookup d.get(k) on an OrderedDict (first, hence unique, matching key). -/
def odGet : Registry → String → Option Module
  | [], _ => none
  | (k', v') :: rest, k => if k' = k then some v' else odGet rest k

/-- register_module: store the freshly constructed module object under its
name (self._modules[modulename] = module_obj).  Constructing the object from
the application-supplied module class happens outside the manager; the model
receives the constructed object. -/
def register_module (reg : Registry) (modulename : String) (module_obj : Module) : Registry :=
  odSet reg modulename module_obj

/-- register_modules: register a sequence of (name, module) pairs in order. -/
def register_modules (reg : Registry) (appmodules : List (String × Module)) : Registry :=
  appmodules.foldl (fun r p => register_module r p.1 p.2) reg

/-- is_ready_module: False for unknown names, otherwise the module's own
readiness flag. -/
def is_ready_module (reg : Registry) (modulename : String) : Bool :=
  match odGet reg modulename with
  | none => false
  | some m => m.is_ready

/-- Modelled from the spec: "lookup always returns the most recently
registered module for a given name (last-write-wins)"; the comparison
definition used to state C6. -/
def specLastRegistered : List (String × Module) → String → Option Module
  | [], _ => none
  | p :: rest, n =>
      match specLastRegistered rest n with
      | some m => some m
      | none => if p.1 = n then some p.2 else none

theorem odGet_odSet (reg : Registry) (k n : String) (v : Module) :
    odGet (odSet reg k v) n = if k = n then some v else odGet reg n := by
  induction reg with
  | nil => by_cases h : k = n <;> simp [odSet, odGet, h]
  | cons p rest ih =>
      obtain ⟨k', v'⟩ := p
      by_cases h1 : k' = k
      · subst h1
        by_cases h2 : k' = n <;> simp [odSet, odGet, h2]
      · by_cases h2 : k' = n
        · subst h2
          have hkn : ¬ k = k' := fun h => h1 h.symm
          simp [odSet, odGet, h1, hkn]
        · simp [odSet, odGet, h1, h2, ih]

theorem odGet_register_modules (ops : List (String × Module)) :
    ∀ (reg0 : Registry) (n : String),
      odGet (register_modules reg0 ops) n =
        match specLastRegistered ops n with
        | some m => some m
        | none => odGet reg0 n := by
  induction ops with
  | nil => intro reg0 n; rfl
  | cons p rest ih =>
      intro reg0 n
      have hstep : register_modules reg0 (p :: rest) =
          register_modules (register_module reg0 p.1 p.2) rest := rfl
      rw [hstep, ih]
      cases hsl : specLastRegistered rest n with
      | some m => simp [specLastRegistered, hsl]
      | none =>
          simp only [specLastRegistered, hsl]
          rw [register_module, odGet_odSet]
          by_cases h2 : p.1 = n <;> simp [h2]

/-- C6: for every sequence of module registrations (starting from the empty
registry), looking up a name returns the module instance most recently
registered under that name — re-registering a name overwrites the prior entry
without error — and the readiness query is false for any name never
registered, otherwise deferring to the module's own readiness flag. -/
theorem registry_last_write_wins (ops : List (String × Module)) (n : String) :
    odGet (register_modules [] ops) n = specLastRegistered ops n ∧
    (specLastRegistered ops n = none →
      is_ready_module (register_modules [] ops) n = false) ∧
    (∀ m : Module, specLastRegistered ops n = some m →
      is_ready_module (register_modules [] ops) n = m.is_ready) := by
  have h := odGet_register_modules ops [] n
  refine ⟨?_, ?_, ?_⟩
  · rw [h]; cases hsl : specLastRegistered ops n <;> simp [hsl, odGet]
  · intro hnone
    simp only [is_ready_module, h, hnone, odGet]
  · intro m hm
    simp only [is_ready_module, h, hm]

/-- One observable step of a broadcast: a synchronous (awaited-to-completion)
handler invocation, an asynchronous fire-and-forget task spawn via
call_method_async, or the assignment self._exit = True. -/
inductive BEv where
  | callSync (modname : String) (oid : ℕ) (event : String)
  | spawnAsync (modname : String) (oid : ℕ) (event : String)
  | setExitFlag
  deriving DecidableEq, Repr

/-- create_metadata: Metadata(source_obj=self, source_name='modulemanager'),
where mgrOid is the identity of the manager object itself. -/
def create_metadata (mgrOid : ℕ) : Metadata :=
  { source_obj := mgrOid, source_name := "modulemanager" }

/-- The for-loop of broadcast_event_internal: iterate the registry in
registration order and, for every module whose object differs from
metadata.source_obj (split horizon), invoke the handler named after the event,
spawned via call_method_async when asynchronous and awaited directly
otherwise. -/
def broadcastLoop (mods : Registry) (srcOid : ℕ) (event : String)
    (asynchronous : Bool) : List BEv :=
  mods.filterMap fun nm =>
    if nm.2.oid = srcOid then none
    else some (if asynchronous then BEv.spawnAsync nm.1 nm.2.oid event
               else BEv.callSync nm.1 nm.2.oid event)

/-- broadcast_event_internal, as the trace of observable steps it performs
plus the exit flag after it returns (exit0 is the flag on entry).  In the
source the three shutdown broadcasts are recursive calls to
broadcast_event_internal on the events "deactivate", "initiate_shutdown" and
"finalize_shutdown" with metadata created by create_metadata; none of those
event names equals "on_exit", so each recursive call takes the plain branch
and contributes exactly its broadcastLoop.  That single unfolding is inlined
here. -/
def broadcast_event_internal (mods : Registry) (mgrOid : ℕ) (md : Metadata)
    (event : String) (asynchronous : Bool) (exit0 : Bool) : List BEv × Bool :=
  let loop := broadcastLoop mods md.source_obj event asynchronous
  if event = "on_exit" then
    (loop ++ BEv.setExitFlag ::
      (broadcastLoop mods (create_metadata mgrOid).source_obj "deactivate" false ++
        (broadcastLoop mods (create_metadata mgrOid).source_obj "initiate_shutdown" false ++
          broadcastLoop mods (create_metadata mgrOid).source_obj "finalize_shutdown" false)),
      true)
  else (loop, exit0)

/-- Sanity check: for any event other than on_exit the trace is just the loop
and the exit flag is unchanged. -/
theorem broadcast_event_internal_plain (mods : Registry) (mgrOid : ℕ)
    (md : Metadata) (event : String) (asynchronous : Bool) (exit0 : Bool)
    (h : event ≠ "on_exit") :
    broadcast_event_internal mods mgrOid md event asynchronous exit0 =
      (broadcastLoop mods md.source_obj event asynchronous, exit0) := by
  simp [broadcast_event_internal, h]

/-- The handler name an observable step invokes, if any. -/
def evName : BEv → Option String
  | .callSync _ _ e => some e
  | .spawnAsync _ _ e => some e
  | .setExitFlag => none

/-- Names of the modules whose handler for event E a trace invokes, in trace
order. -/
def callsFor (tr : List BEv) (E : String) : List String :=
  tr.filterMap fun e =>
    match e with
    | .callSync n _ ev => if ev = E then some n else none
    | .spawnAsync n _ ev => if ev = E then some n else none
    | .setExitFlag => none

theorem evName_of_mem_broadcastLoop {mods : Registry} {srcOid : ℕ}
    {event : String} {asynchronous : Bool} {a : BEv}
    (ha : a ∈ broadcastLoop mods srcOid event asynchronous) :
    evName a = some event := by
  rcases List.mem_filterMap.mp ha with ⟨nm, _, hf⟩
  by_cases h : nm.2.oid = srcOid
  · simp [h] at hf
  · rw [if_neg h] at hf
    cases asynchronous
    · rw [← Option.some.inj hf]; rfl
    · rw [← Option.some.inj hf]; rfl

theorem callsFor_append (u w : List BEv) (E : String) :
    callsFor (u ++ w) E = callsFor u E ++ callsFor w E := by
  simp [callsFor, List.filterMap_append]

theorem callsFor_broadcastLoop (mods : Registry) (srcOid : ℕ) (e E : String)
    (b : Bool) :
    callsFor (broadcastLoop mods srcOid e b) E =
      if e = E then
        mods.filterMap fun nm => if nm.2.oid = srcOid then none else some nm.1
      else [] := by
  induction mods with
  | nil => by_cases h : e = E <;> simp [callsFor, broadcastLoop, h]
  | cons nm rest ih =>
      by_cases hsrc : nm.2.oid = srcOid
      · have h1 : broadcastLoop (nm :: rest) srcOid e b =
            broadcastLoop rest srcOid e b := by
          simp [broadcastLoop, List.filterMap_cons, hsrc]
        have h2 : (nm :: rest).filterMap
              (fun nm => if nm.2.oid = srcOid then none else some nm.1) =
            rest.filterMap
              (fun nm => if nm.2.oid = srcOid then none else some nm.1) := by
          simp [List.filterMap_cons, hsrc]
        rw [h1, h2]
        exact ih
      · have h1 : broadcastLoop (nm :: rest) srcOid e b =
            (if b then BEv.spawnAsync nm.1 nm.2.oid e
              else BEv.callSync nm.1 nm.2.oid e) ::
              broadcastLoop rest srcOid e b := by
          simp [broadcastLoop, List.filterMap_cons, hsrc]
        have h2 : (nm :: rest).filterMap
              (fun nm => if nm.2.oid = srcOid then none else some nm.1) =
            nm.1 :: rest.filterMap
              (fun nm => if nm.2.oid = srcOid then none else some nm.1) := by
          simp [List.filterMap_cons, hsrc]
        have h3 : callsFor
              ((if b then BEv.spawnAsync nm.1 nm.2.oid e
                else BEv.callSync nm.1 nm.2.oid e) ::
                broadcastLoop rest srcOid e b) E =
            (if e = E then [nm.1] else []) ++
              callsFor (broadcastLoop rest srcOid e b) E := by
          cases b <;> by_cases he : e = E <;>
            simp [callsFor, List.filterMap_cons, he]
        rw [h1, h2, h3, ih]
        by_cases he : e = E <;> simp [he]

theorem callsFor_cons_setExit (l : List BEv) (E : String) :
    callsFor (BEv.setExitFlag :: l) E = callsFor l E := by
  simp [callsFor, List.filterMap_cons]

theorem eq_of_keys_nodup {l : Registry} (hnd : (l.map Prod.fst).Nodup)
    {n : String} {m m' : Module} (h1 : (n, m) ∈ l) (h2 : (n, m') ∈ l) :
    m = m' := by
  induction l with
  | nil => cases h1
  | cons p rest ih =>
      simp only [List.map_cons, List.nodup_cons] at hnd
      rcases List.mem_cons.mp h1 with h1 | h1 <;>
        rcases List.mem_cons.mp h2 with h2 | h2
      · rw [← h1] at h2
        exact ((Prod.mk.injEq n m' n m).mp h2).2.symm
      · exfalso
        apply hnd.1
        have hn : n ∈ rest.map Prod.fst := List.mem_map_of_mem Prod.fst h2
        rw [← h1]
        exact hn
      · exfalso
        apply hnd.1
        have hn : n ∈ rest.map Prod.fst := List.mem_map_of_mem Prod.fst h1
        rw [← h2]
        exact hn
      · exact ih hnd.2 h1 h2

theorem filterMap_keys_sublist (mods : Registry) (srcOid : ℕ) :
    (mods.filterMap fun nm =>
      if nm.2.oid = srcOid then none else some nm.1).Sublist
      (mods.map Prod.fst) := by
  induction mods with
  | nil => simp
  | cons nm rest ih =>
      by_cases h : nm.2.oid = srcOid
      · simp only [List.filterMap_cons, h, if_true, List.map_cons]
        exact ih.cons _
      · simp only [List.filterMap_cons, h, if_false, List.map_cons]
        exact ih.cons₂ _

/-- C4: for every broadcast of an event E whose metadata carries origin module
M (registered under name nM), the broadcast never invokes M's own handler for
E, invokes the handler of every other registered module at most once, and the
invocation sequence follows registration order (it is a sublist of the
registry's key order). -/
theorem broadcast_split_horizon (mods : Registry) (mgrOid : ℕ) (md : Metadata)
    (E : String) (asynchronous : Bool) (exit0 : Bool) (nM : String)
    (mM : Module) (hmem : (nM, mM) ∈ mods)
    (hkeys : (mods.map Prod.fst).Nodup) (hsrc : md.source_obj = mM.oid) :
    (callsFor (broadcast_event_internal mods mgrOid md E asynchronous exit0).1
        E).count nM = 0 ∧
    (∀ n : String,
      (callsFor (broadcast_event_internal mods mgrOid md E asynchronous
          exit0).1 E).count n ≤ 1) ∧
    (callsFor (broadcast_event_internal mods mgrOid md E asynchronous exit0).1
        E).Sublist (mods.map Prod.fst) := by
  have hcalls :
      callsFor (broadcast_event_internal mods mgrOid md E asynchronous
        exit0).1 E =
      mods.filterMap fun nm =>
        if nm.2.oid = md.source_obj then none else some nm.1 := by
    by_cases hE : E = "on_exit"
    · subst hE
      have htr : (broadcast_event_internal mods mgrOid md "on_exit"
            asynchronous exit0).1 =
          broadcastLoop mods md.source_obj "on_exit" asynchronous ++
            BEv.setExitFlag ::
              (broadcastLoop mods mgrOid "deactivate" false ++
                (broadcastLoop mods mgrOid "initiate_shutdown" false ++
                  broadcastLoop mods mgrOid "finalize_shutdown" false)) := by
        simp [broadcast_event_internal, create_metadata]
      rw [htr, callsFor_append, callsFor_cons_setExit, callsFor_append,
        callsFor_append, callsFor_broadcastLoop, callsFor_broadcastLoop,
        callsFor_broadcastLoop, callsFor_broadcastLoop]
      simp
    · simp [broadcast_event_internal, hE, callsFor_broadcastLoop]
  rw [hcalls]
  refine ⟨?_, ?_, filterMap_keys_sublist mods md.source_obj⟩
  · rw [List.count_eq_zero]
    intro hm
    rcases List.mem_filterMap.mp hm with ⟨nm, hnm, hf⟩
    by_cases h : nm.2.oid = md.source_obj
    · simp [h] at hf
    · rw [if_neg h] at hf
      have h1 : nm.1 = nM := Option.some.inj hf
      have hpair : (nM, nm.2) ∈ mods := by
        have : nm = (nM, nm.2) := by
          rw [← h1]
        rw [← this]
        exact hnm
      have h2 : nm.2 = mM := eq_of_keys_nodup hkeys hpair hmem
      exact h (by rw [h2, ← hsrc])
  · intro n
    have hnd : (mods.filterMap fun nm =>
        if nm.2.oid = md.source_obj then none else some nm.1).Nodup :=
      (filterMap_keys_sublist mods md.source_obj).nodup hkeys
    exact List.nodup_iff_count_le_one.mp hnd n

/-- The trace of observable steps of a broadcast of the terminal event
on_exit. -/
def onExitTrace (mods : Registry) (mgrOid : ℕ) (md : Metadata)
    (asynchronous exit0 : Bool) : List BEv :=
  (broadcast_event_internal mods mgrOid md "on_exit" asynchronous exit0).1

theorem getElem?_order_of_split {α : Type} (u w : List α) (P Q : α → Prop)
    (hPw : ∀ a ∈ w, ¬ P a) (hQu : ∀ a ∈ u, ¬ Q a) (i j : ℕ) (x y : α)
    (hi : (u ++ w)[i]? = some x) (hPx : P x)
    (hj : (u ++ w)[j]? = some y) (hQy : Q y) : i < j := by
  have hiu : i < u.length := by
    by_contra hle
    push_neg at hle
    rw [List.getElem?_append_right hle] at hi
    exact hPw x (List.getElem?_mem hi) hPx
  have hju : u.length ≤ j := by
    by_contra hlt
    push_neg at hlt
    rw [List.getElem?_append_left hlt] at hj
    exact hQu y (List.getElem?_mem hj) hQy
  omega

/-- C3: whenever on_exit is broadcast, after the broadcast loop over the
registered modules completes the Exit Flag is set, and then deactivate,
initiate_shutdown and finalize_shutdown are broadcast synchronously in that
strict order: every module receives each of the three as a synchronous
(awaited) call; every on_exit loop step precedes the flag assignment; the
flag assignment precedes every deactivate call; every deactivate call
precedes every initiate_shutdown call; and every initiate_shutdown call
precedes every finalize_shutdown call.  Awaited synchronous calls are atomic
trace steps, so strictly preceding in the trace means completed before the
later call starts. -/
theorem on_exit_shutdown_order (mods : Registry) (mgrOid : ℕ) (md : Metadata)
    (asynchronous exit0 : Bool)
    (hmgr : mgrOid ∉ mods.map fun nm => nm.2.oid) :
    (broadcast_event_internal mods mgrOid md "on_exit" asynchronous exit0).2
        = true ∧
    (∀ nm ∈ mods,
      BEv.callSync nm.1 nm.2.oid "deactivate" ∈
          onExitTrace mods mgrOid md asynchronous exit0 ∧
      BEv.callSync nm.1 nm.2.oid "initiate_shutdown" ∈
          onExitTrace mods mgrOid md asynchronous exit0 ∧
      BEv.callSync nm.1 nm.2.oid "finalize_shutdown" ∈
          onExitTrace mods mgrOid md asynchronous exit0) ∧
    (∀ (i j : ℕ) (x : BEv), (onExitTrace mods mgrOid md asynchronous exit0)[i]? = some x →
      evName x = some "on_exit" →
      (onExitTrace mods mgrOid md asynchronous exit0)[j]? =
          some BEv.setExitFlag → i < j) ∧
    (∀ (i j : ℕ) (y : BEv), (onExitTrace mods mgrOid md asynchronous exit0)[i]? =
          some BEv.setExitFlag →
      (onExitTrace mods mgrOid md asynchronous exit0)[j]? = some y →
      evName y = some "deactivate" → i < j) ∧
    (∀ (i j : ℕ) (x y : BEv), (onExitTrace mods mgrOid md asynchronous exit0)[i]? = some x →
      evName x = some "deactivate" →
      (onExitTrace mods mgrOid md asynchronous exit0)[j]? = some y →
      evName y = some "initiate_shutdown" → i < j) ∧
    (∀ (i j : ℕ) (x y : BEv), (onExitTrace mods mgrOid md asynchronous exit0)[i]? = some x →
      evName x = some "initiate_shutdown" →
      (onExitTrace mods mgrOid md asynchronous exit0)[j]? = some y →
      evName y = some "finalize_shutdown" → i < j) := by
  have htr : onExitTrace mods mgrOid md asynchronous exit0 =
      broadcastLoop mods md.source_obj "on_exit" asynchronous ++
        BEv.setExitFlag ::
          (broadcastLoop mods mgrOid "deactivate" false ++
            (broadcastLoop mods mgrOid "initiate_shutdown" false ++
              broadcastLoop mods mgrOid "finalize_shutdown" false)) := by
    simp [onExitTrace, broadcast_event_internal, create_metadata]
  have hAev : ∀ a ∈ broadcastLoop mods md.source_obj "on_exit" asynchronous,
      evName a = some "on_exit" := fun _ ha => evName_of_mem_broadcastLoop ha
  have hDev : ∀ a ∈ broadcastLoop mods mgrOid "deactivate" false,
      evName a = some "deactivate" := fun _ ha => evName_of_mem_broadcastLoop ha
  have hIev : ∀ a ∈ broadcastLoop mods mgrOid "initiate_shutdown" false,
      evName a = some "initiate_shutdown" :=
    fun _ ha => evName_of_mem_broadcastLoop ha
  have hFev : ∀ a ∈ broadcastLoop mods mgrOid "finalize_shutdown" false,
      evName a = some "finalize_shutdown" :=
    fun _ ha => evName_of_mem_broadcastLoop ha
  refine ⟨by simp [broadcast_event_internal], ?_, ?_, ?_, ?_, ?_⟩
  · intro nm hnm
    have hne : ¬ nm.2.oid = mgrOid := by
      intro h
      exact hmgr (h ▸ List.mem_map_of_mem (fun nm => nm.2.oid) hnm)
    refine ⟨?_, ?_, ?_⟩
    · rw [htr]
      refine List.mem_append_right _ (List.mem_cons_of_mem _ ?_)
      refine List.mem_append_left _ ?_
      exact List.mem_filterMap.mpr ⟨nm, hnm, by rw [if_neg hne]; rfl⟩
    · rw [htr]
      refine List.mem_append_right _ (List.mem_cons_of_mem _ ?_)
      refine List.mem_append_right _ (List.mem_append_left _ ?_)
      exact List.mem_filterMap.mpr ⟨nm, hnm, by rw [if_neg hne]; rfl⟩
    · rw [htr]
      refine List.mem_append_right _ (List.mem_cons_of_mem _ ?_)
      refine List.mem_append_right _ (List.mem_append_right _ ?_)
      exact List.mem_filterMap.mpr ⟨nm, hnm, by rw [if_neg hne]; rfl⟩
  · intro i j x hi hx hj
    rw [htr] at hi hj
    refine getElem?_order_of_split _ _
      (fun a => evName a = some "on_exit") (fun a => a = BEv.setExitFlag)
      ?_ ?_ i j x BEv.setExitFlag hi hx hj rfl
    · intro a ha hev
      rcases List.mem_cons.mp ha with rfl | ha
      · exact absurd hev (by decide)
      · rcases List.mem_append.mp ha with ha | ha
        · rw [hDev a ha] at hev; exact absurd hev (by decide)
        · rcases List.mem_append.mp ha with ha | ha
          · rw [hIev a ha] at hev; exact absurd hev (by decide)
          · rw [hFev a ha] at hev; exact absurd hev (by decide)
    · intro a ha hae
      have hev := hAev a ha
      rw [hae] at hev
      exact absurd hev (by decide)
  · intro i j y hi hj hy
    have e2 : onExitTrace mods mgrOid md asynchronous exit0 =
        (broadcastLoop mods md.source_obj "on_exit" asynchronous ++
            [BEv.setExitFlag]) ++
          (broadcastLoop mods mgrOid "deactivate" false ++
            (broadcastLoop mods mgrOid "initiate_shutdown" false ++
              broadcastLoop mods mgrOid "finalize_shutdown" false)) := by
      rw [htr]; simp
    rw [e2] at hi hj
    refine getElem?_order_of_split _ _
      (fun a => a = BEv.setExitFlag) (fun a => evName a = some "deactivate")
      ?_ ?_ i j BEv.setExitFlag y hi rfl hj hy
    · intro a ha hae
      rcases List.mem_append.mp ha with ha | ha
      · have hev := hDev a ha
        rw [hae] at hev
        exact absurd hev (by decide)
      · rcases List.mem_append.mp ha with ha | ha
        · have hev := hIev a ha
          rw [hae] at hev
          exact absurd hev (by decide)
        · have hev := hFev a ha
          rw [hae] at hev
          exact absurd hev (by decide)
    · intro a ha hev
      rcases List.mem_append.mp ha with ha | ha
      · rw [hAev a ha] at hev; exact absurd hev (by decide)
      · rcases List.mem_singleton.mp ha with rfl
        exact absurd hev (by decide)
  · intro i j x y hi hx hj hy
    have e3 : onExitTrace mods mgrOid md asynchronous exit0 =
        (broadcastLoop mods md.source_obj "on_exit" asynchronous ++
            BEv.setExitFlag :: broadcastLoop mods mgrOid "deactivate" false) ++
          (broadcastLoop mods mgrOid "initiate_shutdown" false ++
            broadcastLoop mods mgrOid "finalize_shutdown" false) := by
      rw [htr]; simp
    rw [e3] at hi hj
    refine getElem?_order_of_split _ _
      (fun a => evName a = some "deactivate")
      (fun a => evName a = some "initiate_shutdown")
      ?_ ?_ i j x y hi hx hj hy
    · intro a ha hev
      rcases List.mem_append.mp ha with ha | ha
      · rw [hIev a ha] at hev; exact absurd hev (by decide)
      · rw [hFev a ha] at hev; exact absurd hev (by decide)
    · intro a ha hev
      rcases List.mem_append.mp ha with ha | ha
      · rw [hAev a ha] at hev; exact absurd hev (by decide)
      · rcases List.mem_cons.mp ha with rfl | ha
        · exact absurd hev (by decide)
        · rw [hDev a ha] at hev; exact absurd hev (by decide)
  · intro i j x y hi hx hj hy
    have e4 : onExitTrace mods mgrOid md asynchronous exit0 =
        (broadcastLoop mods md.source_obj "on_exit" asynchronous ++
            BEv.setExitFlag ::
              (broadcastLoop mods mgrOid "deactivate" false ++
                broadcastLoop mods mgrOid "initiate_shutdown" false)) ++
          broadcastLoop mods mgrOid "finalize_shutdown" false := by
      rw [htr]; simp
    rw [e4] at hi hj
    refine getElem?_order_of_split _ _
      (fun a => evName a = some "initiate_shutdown")
      (fun a => evName a = some "finalize_shutdown")
      ?_ ?_ i j x y hi hx hj hy
    · intro a ha hev
      rw [hFev a ha] at hev; exact absurd hev (by decide)
    · intro a ha hev
      rcases List.mem_append.mp ha with ha | ha
      · rw [hAev a ha] at hev; exact absurd hev (by decide)
      · rcases List.mem_cons.mp ha with rfl | ha
        · exact absurd hev (by decide)
        · rcases List.mem_append.mp ha with ha | ha
          · rw [hDev a ha] at hev; exact absurd hev (by decide)
          · rw [hIev a ha] at hev; exact absurd hev (by decide)

def wMod1 : Module := { oid := 1, is_ready := true, call_method := fun _ _ => PyVal.none }

def wMod2 : Module := { oid := 2, is_ready := true, call_method := fun _ _ => PyVal.none }

def wMod3 : Module := { oid := 3, is_ready := true, call_method := fun _ _ => PyVal.none }

/-- Three-module registry used by concrete witnesses. -/
def wReg3 : Registry := [("a", wMod1), ("b", wMod2), ("c", wMod3)]

/-- Witness for C4: in a three-module registry, broadcasting "ping" with
origin module "b" never calls the handler of "b". -/
theorem broadcast_split_horizon_witness :
    ("b", wMod2) ∈ wReg3 ∧
    (callsFor (broadcast_event_internal wReg3 0 ⟨2, "b"⟩ "ping" true false).1
        "ping").count "b" = 0 :=
  ⟨List.Mem.tail _ (List.Mem.head _),
    (broadcast_split_horizon wReg3 0 ⟨2, "b"⟩ "ping" true false "b" wMod2
        (List.Mem.tail _ (List.Mem.head _)) (by decide) rfl).1⟩

/-- Witness for C3: in the concrete three-module registry (manager identity
0, which is none of the module identities) an on_exit broadcast sets the exit
flag and delivers a synchronous deactivate call to module "a". -/
theorem on_exit_shutdown_order_witness :
    ((0 : ℕ) ∉ wReg3.map fun nm => nm.2.oid) ∧
    (broadcast_event_internal wReg3 0 ⟨2, "b"⟩ "on_exit" true false).2 = true ∧
    BEv.callSync "a" 1 "deactivate" ∈ onExitTrace wReg3 0 ⟨2, "b"⟩ true false :=
  ⟨by decide,
    (on_exit_shutdown_order wReg3 0 ⟨2, "b"⟩ true false (by decide)).1,
    ((on_exit_shutdown_order wReg3 0 ⟨2, "b"⟩ true false (by decide)).2.1
        ("a", wMod1) (List.Mem.head _)).1⟩

def wModA : Module := { oid := 1, is_ready := false, call_method := fun _ _ => PyVal.none }

def wModB : Module := { oid := 2, is_ready := true, call_method := fun _ _ => PyVal.none }

/-- Witness for C6 at a concrete registration sequence that re-registers the
name "a": the second registration wins and readiness defers to it. -/
theorem registry_last_write_wins_witness :
    specLastRegistered [("a", wModA), ("a", wModB)] "a" = some wModB ∧
    is_ready_module (register_modules [] [("a", wModA), ("a", wModB)]) "a" = true :=
  ⟨rfl, (registry_last_write_wins [("a", wModA), ("a", wModB)] "a").2.2 wModB rfl⟩

/-- The sleep interval before iteration k of the admission-control wait:
0.001 seconds doubled k times.  Doubling a binary floating-point number is
exact, so the source's float sleeptime takes exactly these values (up to the
representation error of 0.001, which never changes the comparison against 1),
and the branch sleeptime < 1 is decided identically over the rationals. -/
def sleepSeq (k : ℕ) : ℚ := 2 ^ k / 1000

theorem sleepSeq_lt_one_iff (k : ℕ) : sleepSeq k < 1 ↔ k < 10 := by
  simp only [sleepSeq]
  rw [div_lt_one (by norm_num)]
  constructor
  · intro h
    by_contra hge
    push_neg at hge
    have h10 : (2 : ℚ) ^ 10 ≤ 2 ^ k := pow_le_pow_right₀ (by norm_num) hge
    norm_num at h10
    linarith
  · intro h
    have hle : (2 : ℚ) ^ k ≤ 2 ^ 9 := pow_le_pow_right₀ (by norm_num) (by omega)
    calc (2 : ℚ) ^ k ≤ 2 ^ 9 := hle
      _ < 1000 := by norm_num

/-- The while-loop of wait_for_free_task_slot inside call_method_async.
obs k is the number of running tasks observed at the k-th evaluation of the
loop condition (the count changes only across awaits) and nmods is the number
of registered modules.  The result is the list of sleep intervals performed
and whether the long-wait warning fired (the break that proceeds regardless).
Iteration k: re-check the condition against the lower threshold
(running ≤ modules); if still above it, sleep sleepSeq k and then either
double the sleep time and continue (while it is below one second) or log the
warning and break. -/
def slotWaitAux (obs : ℕ → ℕ) (nmods : ℕ) (k : ℕ) : List ℚ × Bool :=
  if obs k ≤ nmods then ([], false)
  else if h : sleepSeq k < 1 then
    (sleepSeq k :: (slotWaitAux obs nmods (k + 1)).1,
      (slotWaitAux obs nmods (k + 1)).2)
  else ([sleepSeq k], true)
termination_by 10 - k
decreasing_by
  have hk := (sleepSeq_lt_one_iff k).mp h
  omega

/-- wait_for_free_task_slot: the waiting loop is entered only when the number
of running tasks strictly exceeds twice the number of registered modules. -/
def wait_for_free_task_slot (obs : ℕ → ℕ) (nmods : ℕ) : List ℚ × Bool :=
  if 2 * nmods < obs 0 then slotWaitAux obs nmods 0 else ([], false)

theorem slotWaitAux_spec (obs : ℕ → ℕ) (nmods : ℕ) :
    ∀ m k, 10 - k = m → k ≤ 10 →
      ((slotWaitAux obs nmods k).1.length + k ≤ 11) ∧
      (∀ i < (slotWaitAux obs nmods k).1.length,
        (slotWaitAux obs nmods k).1[i]? = some (sleepSeq (k + i))) ∧
      ((slotWaitAux obs nmods k).2 = true →
        (slotWaitAux obs nmods k).1.length = 11 - k) ∧
      ((slotWaitAux obs nmods k).2 = false →
        obs (k + (slotWaitAux obs nmods k).1.length) ≤ nmods) := by
  intro m
  induction m using Nat.strong_induction_on with
  | _ m ih =>
    intro k hm hk
    have hunf : slotWaitAux obs nmods k =
        if obs k ≤ nmods then ([], false)
        else if _h : sleepSeq k < 1 then
          (sleepSeq k :: (slotWaitAux obs nmods (k + 1)).1,
            (slotWaitAux obs nmods (k + 1)).2)
        else ([sleepSeq k], true) := by
      rw [slotWaitAux]
    by_cases h1 : obs k ≤ nmods
    · rw [hunf, if_pos h1]
      exact ⟨by simp; omega, by simp, by simp, fun _ => by simpa using h1⟩
    · by_cases h2 : sleepSeq k < 1
      · have hklt : k < 10 := (sleepSeq_lt_one_iff k).mp h2
        obtain ⟨hlen, hget, hwarn, hfalse⟩ :=
          ih (10 - (k + 1)) (by omega) (k + 1) rfl (by omega)
        rw [hunf, if_neg h1, dif_pos h2]
        refine ⟨?_, ?_, ?_, ?_⟩
        · simp only [List.length_cons]
          omega
        · intro i hi
          match i with
          | 0 => simp
          | Nat.succ i =>
              simp only [List.length_cons, Nat.succ_lt_succ_iff] at hi
              rw [List.getElem?_cons_succ]
              have harith : k + (i + 1) = k + 1 + i := by omega
              rw [harith]
              exact hget i hi
        · intro hw
          simp only [List.length_cons]
          have := hwarn hw
          omega
        · intro hw
          have hobs := hfalse hw
          have harith : k + (slotWaitAux obs nmods (k + 1)).1.length.succ =
              k + 1 + (slotWaitAux obs nmods (k + 1)).1.length := by omega
          simpa [harith] using hobs
      · rw [hunf, if_neg h1, dif_neg h2]
        have hk10 : ¬ k < 10 := fun hlt => h2 ((sleepSeq_lt_one_iff k).mpr hlt)
        have hkeq : k = 10 := by omega
        refine ⟨by simp [hkeq], ?_, by intro _; simp [hkeq], ?_⟩
        · intro i hi
          have hi0 : i = 0 := by simpa using hi
          subst hi0
          simp
        · intro hfe
          simp at hfe

/-- C5: the admission-control wait in call_method_async is entered only when
the number of running tasks exceeds twice the number of registered modules;
its sleeps follow exponential backoff starting at one millisecond (the i-th
sleep lasts 2^i/1000 seconds, each interval double the previous one, and the
doubling stops at the first interval at or above one second); the condition
is re-checked against the lower threshold (running tasks ≤ number of
modules) after each sleep, and the wait exits without warning only when that
re-check passes; once the backoff reaches the one-second ceiling the wait
logs a warning and proceeds unconditionally, so the wait always terminates
after at most eleven sleeps. -/
theorem call_method_async_backoff (obs : ℕ → ℕ) (nmods : ℕ) :
    sleepSeq 0 = 1 / 1000 ∧
    (∀ i : ℕ, sleepSeq (i + 1) = 2 * sleepSeq i) ∧
    (¬ 2 * nmods < obs 0 → wait_for_free_task_slot obs nmods = ([], false)) ∧
    (wait_for_free_task_slot obs nmods).1.length ≤ 11 ∧
    (∀ i < (wait_for_free_task_slot obs nmods).1.length,
      (wait_for_free_task_slot obs nmods).1[i]? = some (sleepSeq i)) ∧
    ((wait_for_free_task_slot obs nmods).2 = true →
      (wait_for_free_task_slot obs nmods).1.length = 11) ∧
    ((wait_for_free_task_slot obs nmods).2 = false → 2 * nmods < obs 0 →
      obs ((wait_for_free_task_slot obs nmods).1.length) ≤ nmods) := by
  have hdouble : ∀ i : ℕ, sleepSeq (i + 1) = 2 * sleepSeq i := by
    intro i
    simp only [sleepSeq, pow_succ]
    ring
  by_cases henter : 2 * nmods < obs 0
  · have heq : wait_for_free_task_slot obs nmods = slotWaitAux obs nmods 0 := by
      rw [wait_for_free_task_slot, if_pos henter]
    obtain ⟨hlen, hget, hwarn, hfalse⟩ :=
      slotWaitAux_spec obs nmods 10 0 rfl (by omega)
    refine ⟨rfl, hdouble, fun h => absurd henter h, ?_, ?_, ?_, ?_⟩
    · rw [heq]; omega
    · intro i hi
      rw [heq] at hi ⊢
      simpa using hget i hi
    · intro hw
      rw [heq] at hw ⊢
      simpa using hwarn hw
    · intro hw _
      rw [heq] at hw ⊢
      simpa using hfalse hw
  · have heq : wait_for_free_task_slot obs nmods = ([], false) := by
      rw [wait_for_free_task_slot, if_neg henter]
    refine ⟨rfl, hdouble, fun _ => heq, by rw [heq]; simp, ?_, ?_, ?_⟩
    · intro i hi
      rw [heq] at hi
      simp at hi
    · intro hw
      rw [heq] at hw
      exact absurd hw (by decide)
    · intro _ hcon
      exact absurd hcon henter

/-- Observation sequence for the C5 witness: five running tasks at the entry
check, none afterwards. -/
def w5obs : ℕ → ℕ := fun k => if k = 0 then 5 else 0

/-- Witness for C5: with one registered module and five running tasks the
wait is entered, sleeps once for a millisecond, re-checks the lower
threshold and proceeds without warning. -/
theorem call_method_async_backoff_witness :
    (wait_for_free_task_slot w5obs 1).2 = false ∧
    w5obs ((wait_for_free_task_slot w5obs 1).1.length) ≤ 1 := by
  have hstep1 : slotWaitAux w5obs 1 1 = ([], false) := by
    rw [slotWaitAux]
    norm_num [w5obs]
  have hv : wait_for_free_task_slot w5obs 1 = ([sleepSeq 0], false) := by
    rw [wait_for_free_task_slot, if_pos (by norm_num [w5obs])]
    rw [slotWaitAux]
    rw [if_neg (by norm_num [w5obs]),
      dif_pos (show sleepSeq 0 < 1 by rw [sleepSeq_lt_one_iff]; omega)]
    norm_num [hstep1]
  have hfalse : (wait_for_free_task_slot w5obs 1).2 = false := by rw [hv]
  exact ⟨hfalse,
    (call_method_async_backoff w5obs 1).2.2.2.2.2.2 hfalse (by norm_num [w5obs])⟩

/-- Severity levels of the log records the completion callback emits. -/
inductive LogLevel where
  | critical
  | error
  deriving DecidableEq, Repr

/-- A log record: severity, message, and whether the record carries the full
traceback (logger.exception attaches it). -/
structure LogRecord where
  level : LogLevel
  msg : String
  withTraceback : Bool
  deriving DecidableEq, Repr

/-- An entry appended to the failure sink (the exception_path file): the
destination path, a leading ISO timestamp, and the printed stack trace. -/
structure FailureReport where
  path : String
  timestamped : Bool
  stacktrace : Bool
  deriving DecidableEq, Repr

/-- The outcome of one run of task_done_callback: the two task sets
afterwards, the log records emitted, the failure-sink appends performed, and
the error that escaped the callback, if any. -/
structure CallbackResult where
  running : Finset ℕ
  finished : Finset ℕ
  logs : List LogRecord
  reports : List FailureReport
  raised : Option PyErr
  deriving DecidableEq

/-- task_done_callback: discard the task from the running set, add it to the
finished set, then retrieve task.result(); a raised error that is an
Exception instance is caught by the handler, which logs it at critical
severity, logs the traceback, and appends one timestamped stack trace to the
failure sink when an exception_path is configured.  An error that is not an
Exception instance escapes the callback. -/
def task_done_callback (running finished : Finset ℕ) (t : ℕ)
    (outcome : Except PyErr PyVal) (exception_path : Option String) :
    CallbackResult :=
  let running' := running.erase t
  let finished' := insert t finished
  match outcome with
  | .ok _ => ⟨running', finished', [], [], none⟩
  | .error e =>
      if e.isExceptionSubclass then
        ⟨running', finished',
          [⟨LogLevel.critical, "Exception occured", false⟩,
            ⟨LogLevel.error, "Exception info", true⟩],
          (match exception_path with
            | some p => [⟨p, true, true⟩]
            | none => []),
          none⟩
      else ⟨running', finished', [], [], some e⟩

/-- C7: for every task whose module method raises an exception (an Exception
instance), the completion callback captures it — the error never escapes into
the scheduler, so other modules and subsequent queue processing continue —
logs a critical-severity record plus a record carrying the traceback, and
appends exactly one timestamped stack-trace entry to the failure sink when a
sink path is configured (and none otherwise); the task also moves from the
running set to the finished set. -/
theorem task_failure_isolated (running finished : Finset ℕ) (t : ℕ)
    (e : PyErr) (exception_path : Option String)
    (he : e.isExceptionSubclass = true) :
    (task_done_callback running finished t (.error e) exception_path).raised
        = none ∧
    (∃ l ∈ (task_done_callback running finished t (.error e)
        exception_path).logs, l.level = LogLevel.critical) ∧
    (∃ l ∈ (task_done_callback running finished t (.error e)
        exception_path).logs, l.withTraceback = true) ∧
    (∀ p, exception_path = some p →
      (task_done_callback running finished t (.error e) exception_path).reports
        = [⟨p, true, true⟩]) ∧
    (exception_path = none →
      (task_done_callback running finished t (.error e) exception_path).reports
        = []) ∧
    (task_done_callback running finished t (.error e) exception_path).running
        = running.erase t ∧
    (task_done_callback running finished t (.error e) exception_path).finished
        = insert t finished := by
  refine ⟨?_, ?_, ?_, ?_, ?_, ?_, ?_⟩
  · simp [task_done_callback, he]
  · refine ⟨⟨LogLevel.critical, "Exception occured", false⟩, ?_, rfl⟩
    simp [task_done_callback, he]
  · refine ⟨⟨LogLevel.error, "Exception info", true⟩, ?_, rfl⟩
    simp [task_done_callback, he]
  · intro p hp
    simp [task_done_callback, he, hp]
  · intro hp
    simp [task_done_callback, he, hp]
  · simp [task_done_callback, he]
  · simp [task_done_callback, he]

/-- Witness for C7: a generic exception in task 7, with the sink configured
at "errors.log", is captured and produces exactly one timestamped report. -/
theorem task_failure_isolated_witness :
    (PyErr.exception "boom").isExceptionSubclass = true ∧
    (task_done_callback {7} ∅ 7 (.error (PyErr.exception "boom"))
        (some "errors.log")).raised = none ∧
    (task_done_callback {7} ∅ 7 (.error (PyErr.exception "boom"))
        (some "errors.log")).reports = [⟨"errors.log", true, true⟩] :=
  ⟨rfl,
    (task_failure_isolated {7} ∅ 7 (PyErr.exception "boom")
        (some "errors.log") rfl).1,
    (task_failure_isolated {7} ∅ 7 (PyErr.exception "boom")
        (some "errors.log") rfl).2.2.2.1 "errors.log" rfl⟩

/-- Operations on the running/finished task sets, as performed by the source:
start is asyncio.create_task followed by self._running_tasks.add in
call_method_async (and in run's interrupt handler); complete is the pair of
set updates at the top of task_done_callback; reclaim is
gather_finished_tasks clearing the finished set. -/
inductive TOp where
  | start (t : ℕ)
  | complete (t : ℕ)
  | reclaim
  deriving DecidableEq, Repr

/-- The pair (self._running_tasks, self._finished_tasks). -/
structure TaskSets where
  running : Finset ℕ
  finished : Finset ℕ
  deriving DecidableEq

/-- One step of the task-set state machine. -/
def taskStep (s : TaskSets) : TOp → TaskSets
  | .start t => ⟨insert t s.running, s.finished⟩
  | .complete t => ⟨s.running.erase t, insert t s.finished⟩
  | .reclaim => ⟨s.running, ∅⟩

/-- Run a sequence of set operations from a starting state. -/
def taskRun (s : TaskSets) (ops : List TOp) : TaskSets :=
  ops.foldl taskStep s

/-- Valid operation sequences: a task object is fresh when admitted (asyncio
returns a new task object from every create_task call), and each task's
completion callback fires exactly once, after its admission.  P accumulates
the admitted-but-not-completed tasks, D the completed ones. -/
def ValidOps (P D : Finset ℕ) : List TOp → Bool
  | [] => true
  | .start t :: rest =>
      if t ∈ P ∨ t ∈ D then false else ValidOps (insert t P) D rest
  | .complete t :: rest =>
      if t ∈ P then ValidOps (P.erase t) (insert t D) rest else false
  | .reclaim :: rest => ValidOps P D rest

/-- The suffix of operations performed since the most recent reclaim,
accumulated from the left so that it decomposes along taskRun. -/
def sinceLastReclaim (acc : List TOp) (ops : List TOp) : List TOp :=
  ops.foldl (fun a op => match op with | .reclaim => [] | _ => a ++ [op]) acc

theorem taskRun_characterization :
    ∀ (ops : List TOp) (P D F : Finset ℕ) (acc : List TOp),
      ValidOps P D ops = true →
      Disjoint P D → Disjoint P F → F ⊆ D →
      (∀ t, t ∈ F ↔ TOp.complete t ∈ acc) →
      Disjoint (taskRun ⟨P, F⟩ ops).running (taskRun ⟨P, F⟩ ops).finished ∧
      (∀ t, t ∈ (taskRun ⟨P, F⟩ ops).running ↔
        ((t ∈ P ∨ TOp.start t ∈ ops) ∧ ¬(t ∈ D ∨ TOp.complete t ∈ ops))) ∧
      (∀ t, t ∈ (taskRun ⟨P, F⟩ ops).finished ↔
        TOp.complete t ∈ sinceLastReclaim acc ops) := by
  intro ops
  induction ops with
  | nil =>
      intro P D F acc _ hPD hPF _ hF
      refine ⟨hPF, ?_, ?_⟩
      · intro t
        constructor
        · intro ht
          have htP : t ∈ P := ht
          refine ⟨Or.inl htP, ?_⟩
          rintro (hd | hd)
          · exact (Finset.disjoint_left.mp hPD htP) hd
          · cases hd
        · rintro ⟨h1 | h1, _⟩
          · exact h1
          · cases h1
      · intro t
        simpa [taskRun, sinceLastReclaim] using hF t
  | cons op rest ih =>
      intro P D F acc hv hPD hPF hFD hF
      cases op with
      | start t' =>
          rw [ValidOps] at hv
          by_cases hfresh : t' ∈ P ∨ t' ∈ D
          · rw [if_pos hfresh] at hv; cases hv
          · rw [if_neg hfresh] at hv
            push_neg at hfresh
            obtain ⟨hP', hD'⟩ := hfresh
            have hstep : taskRun ⟨P, F⟩ (TOp.start t' :: rest) =
                taskRun ⟨insert t' P, F⟩ rest := rfl
            have hPD2 : Disjoint (insert t' P) D := by
              rw [Finset.disjoint_left]
              intro a ha
              rcases Finset.mem_insert.mp ha with rfl | ha
              · exact hD'
              · exact Finset.disjoint_left.mp hPD ha
            have hPF2 : Disjoint (insert t' P) F := by
              rw [Finset.disjoint_left]
              intro a ha
              rcases Finset.mem_insert.mp ha with rfl | ha
              · exact fun hf => hD' (hFD hf)
              · exact Finset.disjoint_left.mp hPF ha
            have hF2 : ∀ t, t ∈ F ↔ TOp.complete t ∈ acc ++ [TOp.start t'] := by
              intro t
              rw [hF t]
              simp
            obtain ⟨ihd, ihr, ihf⟩ :=
              ih (insert t' P) D F (acc ++ [TOp.start t']) hv hPD2 hPF2 hFD hF2
            refine ⟨by rw [hstep]; exact ihd, ?_, ?_⟩
            · intro t
              rw [hstep, ihr t]
              simp only [Finset.mem_insert, List.mem_cons, TOp.start.injEq,
                reduceCtorEq, false_or]
              tauto
            · intro t
              rw [hstep, ihf t]
              rfl
      | complete t' =>
          rw [ValidOps] at hv
          by_cases hmem : t' ∈ P
          · rw [if_pos hmem] at hv
            have hstep : taskRun ⟨P, F⟩ (TOp.complete t' :: rest) =
                taskRun ⟨P.erase t', insert t' F⟩ rest := rfl
            have hPD2 : Disjoint (P.erase t') (insert t' D) := by
              rw [Finset.disjoint_left]
              intro a ha
              obtain ⟨hne, haP⟩ := Finset.mem_erase.mp ha
              intro hd
              rcases Finset.mem_insert.mp hd with rfl | hd
              · exact hne rfl
              · exact (Finset.disjoint_left.mp hPD haP) hd
            have hPF2 : Disjoint (P.erase t') (insert t' F) := by
              rw [Finset.disjoint_left]
              intro a ha
              obtain ⟨hne, haP⟩ := Finset.mem_erase.mp ha
              intro hf
              rcases Finset.mem_insert.mp hf with rfl | hf
              · exact hne rfl
              · exact (Finset.disjoint_left.mp hPF haP) hf
            have hFD2 : insert t' F ⊆ insert t' D := by
              intro a ha
              rcases Finset.mem_insert.mp ha with rfl | ha
              · exact Finset.mem_insert_self _ _
              · exact Finset.mem_insert_of_mem (hFD ha)
            have hF2 : ∀ t, t ∈ insert t' F ↔
                TOp.complete t ∈ acc ++ [TOp.complete t'] := by
              intro t
              simp only [Finset.mem_insert, hF t, List.mem_append,
                List.mem_singleton, TOp.complete.injEq]
              tauto
            obtain ⟨ihd, ihr, ihf⟩ := ih (P.erase t') (insert t' D)
              (insert t' F) (acc ++ [TOp.complete t']) hv hPD2 hPF2 hFD2 hF2
            refine ⟨by rw [hstep]; exact ihd, ?_, ?_⟩
            · intro t
              rw [hstep, ihr t]
              simp only [Finset.mem_erase, Finset.mem_insert, List.mem_cons,
                TOp.complete.injEq, reduceCtorEq, false_or]
              tauto
            · intro t
              rw [hstep, ihf t]
              rfl
          · rw [if_neg hmem] at hv; cases hv
      | reclaim =>
          rw [ValidOps] at hv
          have hstep : taskRun ⟨P, F⟩ (TOp.reclaim :: rest) =
              taskRun ⟨P, ∅⟩ rest := rfl
          have hF2 : ∀ t, (t : ℕ) ∈ (∅ : Finset ℕ) ↔
              TOp.complete t ∈ ([] : List TOp) := by
            simp
          obtain ⟨ihd, ihr, ihf⟩ := ih P D ∅ [] hv hPD (Finset.disjoint_empty_right _)
            (Finset.empty_subset _) hF2
          refine ⟨by rw [hstep]; exact ihd, ?_, ?_⟩
          · intro t
            rw [hstep, ihr t]
            simp
          · intro t
            rw [hstep, ihf t]
            rfl

/-- C9: for every valid sequence of task-set operations starting from empty
sets, a task is never in both the running and the finished set; a task that
was admitted and whose completion callback has not fired is in the running
set only; a task whose completion callback fired after the last reclamation
is in the finished set only; and a task that was admitted and not yet
reclaimed (its completion, if any, happened after the last reclaim) is in
exactly one of the two sets — never in neither. -/
theorem task_sets_partition (ops : List TOp)
    (hv : ValidOps ∅ ∅ ops = true) (t : ℕ) :
    ¬(t ∈ (taskRun ⟨∅, ∅⟩ ops).running ∧
        t ∈ (taskRun ⟨∅, ∅⟩ ops).finished) ∧
    (TOp.start t ∈ ops ∧ TOp.complete t ∉ ops →
      t ∈ (taskRun ⟨∅, ∅⟩ ops).running ∧
        t ∉ (taskRun ⟨∅, ∅⟩ ops).finished) ∧
    (TOp.complete t ∈ sinceLastReclaim [] ops →
      t ∈ (taskRun ⟨∅, ∅⟩ ops).finished ∧
        t ∉ (taskRun ⟨∅, ∅⟩ ops).running) ∧
    (TOp.start t ∈ ops ∧
        (TOp.complete t ∈ ops → TOp.complete t ∈ sinceLastReclaim [] ops) →
      t ∈ (taskRun ⟨∅, ∅⟩ ops).running ∨
        t ∈ (taskRun ⟨∅, ∅⟩ ops).finished) := by
  obtain ⟨hdisj, hrun, hfin⟩ := taskRun_characterization ops ∅ ∅ ∅ [] hv
    (Finset.disjoint_empty_left _) (Finset.disjoint_empty_left _)
    (Finset.empty_subset _) (by simp)
  refine ⟨?_, ?_, ?_, ?_⟩
  · rintro ⟨hr, hf⟩
    exact (Finset.disjoint_left.mp hdisj hr) hf
  · intro ⟨ha, hc⟩
    have hr : t ∈ (taskRun ⟨∅, ∅⟩ ops).running := by
      rw [hrun t]
      simp [ha, hc]
    exact ⟨hr, fun hf => (Finset.disjoint_left.mp hdisj hr) hf⟩
  · intro hc
    have hf : t ∈ (taskRun ⟨∅, ∅⟩ ops).finished := (hfin t).mpr hc
    exact ⟨hf, fun hr => (Finset.disjoint_left.mp hdisj hr) hf⟩
  · rintro ⟨ha, himp⟩
    by_cases hc : TOp.complete t ∈ ops
    · exact Or.inr ((hfin t).mpr (himp hc))
    · refine Or.inl ?_
      rw [hrun t]
      simp [ha, hc]

/-- Witness for C9 on the concrete run admit 0, admit 1, complete 0, reclaim,
complete 1: task 1 completed after the last reclaim, so it sits in the
finished set and not in the running set. -/
theorem task_sets_partition_witness :
    ValidOps ∅ ∅ [TOp.start 0, TOp.start 1, TOp.complete 0, TOp.reclaim,
        TOp.complete 1] = true ∧
    1 ∈ (taskRun ⟨∅, ∅⟩ [TOp.start 0, TOp.start 1, TOp.complete 0,
        TOp.reclaim, TOp.complete 1]).finished :=
  ⟨by decide,
    ((task_sets_partition [TOp.start 0, TOp.start 1, TOp.complete 0,
          TOp.reclaim, TOp.complete 1] (by decide) 1).2.2.1 (by decide)).1⟩

/-- Scheduler-visible lifecycle state observed by the idle detector: the exit
flag and the sizes of the running and finished task sets. -/
structure LifeState where
  exitFlag : Bool
  running : ℕ
  finished : ℕ
  deriving DecidableEq, Repr

/-- The observable actions of one idle cycle, in the order queue_empty
performs them. -/
inductive IdleAct where
  | gatherFinished
  | bcastBecomingIdle
  | awaitRunningTasks
  deriving DecidableEq, Repr

/-- Environment of one idle cycle.  Every await inside queue_empty suspends
the coroutine, so arbitrary other scheduler work may run and change the
state; each field gives the state transformation produced during the
corresponding suspension.  beforeIdle covers the queue/loop's item
processing between the previous idle observation and this one. -/
structure CycleEnv where
  beforeIdle : LifeState → LifeState
  duringGatherFinished : LifeState → LifeState
  duringIdleBroadcast : LifeState → LifeState
  duringAwaitRunning : LifeState → LifeState

/-- gather_finished_tasks: await the finished tasks (eff is what the
suspension lets run meanwhile) and clear the finished set. -/
def gather_finished_tasks (st : LifeState) (eff : LifeState → LifeState) :
    LifeState :=
  let st' := eff st
  { st' with finished := 0 }

/-- queue_empty: first reclaim finished tasks, then broadcast becoming_idle
(asynchronous, so it can spawn new running tasks); if the exit flag is then
set, await the currently running tasks and signal termination (return true)
exactly when no running task remains afterwards. -/
def queue_empty (env : CycleEnv) (st : LifeState) :
    LifeState × Bool × List IdleAct :=
  let st1 := gather_finished_tasks st env.duringGatherFinished
  let st2 := env.duringIdleBroadcast st1
  if st2.exitFlag then
    let st3 := env.duringAwaitRunning st2
    if st3.running = 0 then
      (st3, true, [IdleAct.gatherFinished, IdleAct.bcastBecomingIdle,
        IdleAct.awaitRunningTasks])
    else
      (st3, false, [IdleAct.gatherFinished, IdleAct.bcastBecomingIdle,
        IdleAct.awaitRunningTasks])
  else (st2, false, [IdleAct.gatherFinished, IdleAct.bcastBecomingIdle])

/-- Modelled from the spec: the queue/loop "invokes the supplied idle
callback whenever the queue is observed empty"; this is the lifecycle state
at the n-th idle observation. -/
def idleState (envs : ℕ → CycleEnv) (init : LifeState) : ℕ → LifeState
  | 0 => (envs 0).beforeIdle init
  | n + 1 =>
      (envs (n + 1)).beforeIdle
        (queue_empty (envs n) (idleState envs init n)).1

/-- The value the idle callback returns at the n-th idle cycle. -/
def idleResult (envs : ℕ → CycleEnv) (init : LifeState) (n : ℕ) : Bool :=
  (queue_empty (envs n) (idleState envs init n)).2.1

/-- The state right after the becoming_idle broadcast of cycle n — the state
whose exit flag queue_empty consults. -/
def stAfterBcast (envs : ℕ → CycleEnv) (init : LifeState) (n : ℕ) :
    LifeState :=
  (envs n).duringIdleBroadcast
    (gather_finished_tasks (idleState envs init n)
      (envs n).duringGatherFinished)

/-- Modelled from the spec: the queue/loop's run routine terminates exactly
at the first idle cycle whose callback returns true; maintask awaits that
run routine, so the main lifecycle ends at that cycle. -/
def loopTerminatesAt (envs : ℕ → CycleEnv) (init : LifeState) (n : ℕ) :
    Prop :=
  idleResult envs init n = true ∧
    ∀ m, m < n → idleResult envs init m = false

theorem queue_empty_true_iff (env : CycleEnv) (st : LifeState) :
    (queue_empty env st).2.1 = true ↔
      (env.duringIdleBroadcast (gather_finished_tasks st
        env.duringGatherFinished)).exitFlag = true ∧
      (env.duringAwaitRunning (env.duringIdleBroadcast
        (gather_finished_tasks st env.duringGatherFinished))).running = 0 := by
  simp only [queue_empty]
  by_cases h1 : (env.duringIdleBroadcast (gather_finished_tasks st
      env.duringGatherFinished)).exitFlag
  · by_cases h2 : (env.duringAwaitRunning (env.duringIdleBroadcast
        (gather_finished_tasks st env.duringGatherFinished))).running = 0
    · simp [h1, h2]
    · simp [h1, h2]
  · simp [h1]

/-- C8: the idle callback signals the queue/loop to terminate (returns true)
only when the exit flag — as observed after reclaiming finished tasks and
broadcasting becoming_idle — is set and, after awaiting the currently
running tasks, zero running tasks remain; every idle cycle performs the
reclaim first and the becoming_idle broadcast second; and the termination
condition is re-evaluated at every idle cycle: the loop terminates at cycle
n only if the condition held there and failed at every earlier idle cycle,
so the main lifecycle never ends while tasks are still running or before the
exit flag is set. -/
theorem lifecycle_termination (envs : ℕ → CycleEnv) (init : LifeState)
    (n : ℕ) (hterm : loopTerminatesAt envs init n) :
    (stAfterBcast envs init n).exitFlag = true ∧
    ((envs n).duringAwaitRunning (stAfterBcast envs init n)).running = 0 ∧
    (∀ m, m < n →
      ¬((stAfterBcast envs init m).exitFlag = true ∧
        ((envs m).duringAwaitRunning (stAfterBcast envs init m)).running
          = 0)) ∧
    (∀ m, (queue_empty (envs m) (idleState envs init m)).2.2.take 2 =
      [IdleAct.gatherFinished, IdleAct.bcastBecomingIdle]) := by
  obtain ⟨htrue, hfalse⟩ := hterm
  have hchar : ∀ m, idleResult envs init m = true ↔
      (stAfterBcast envs init m).exitFlag = true ∧
      ((envs m).duringAwaitRunning (stAfterBcast envs init m)).running
        = 0 := by
    intro m
    have h := queue_empty_true_iff (envs m) (idleState envs init m)
    simpa [idleResult, stAfterBcast] using h
  refine ⟨((hchar n).mp htrue).1, ((hchar n).mp htrue).2, ?_, ?_⟩
  · intro m hm hcon
    have hres := (hchar m).mpr hcon
    rw [hfalse m hm] at hres
    cases hres
  · intro m
    simp only [queue_empty]
    split
    · split <;> rfl
    · rfl

/-- Cycle environments for the C8 witness: nothing happens at cycle 0, the
becoming_idle broadcast of cycle 1 flips the exit flag (an on_exit arrived),
and awaiting the running tasks drains them. -/
def wEnvs : ℕ → CycleEnv := fun n =>
  { beforeIdle := fun s => s
    duringGatherFinished := fun s => s
    duringIdleBroadcast := fun s =>
      if n = 0 then s else { s with exitFlag := true }
    duringAwaitRunning := fun s => { s with running := 0 } }

/-- Initial lifecycle state for the C8 witness. -/
def wInit : LifeState := { exitFlag := false, running := 3, finished := 2 }

/-- Witness for C8: the loop terminates at cycle 1 (cycle 0 returned false),
where the exit flag is set and no task survives the final await. -/
theorem lifecycle_termination_witness :
    idleResult wEnvs wInit 1 = true ∧
    (stAfterBcast wEnvs wInit 1).exitFlag = true ∧
    ((wEnvs 1).duringAwaitRunning (stAfterBcast wEnvs wInit 1)).running
      = 0 := by
  have hterm : loopTerminatesAt wEnvs wInit 1 := by
    constructor
    · rfl
    · intro m hm
      have hm0 : m = 0 := by omega
      subst hm0
      rfl
  exact ⟨hterm.1, (lifecycle_termination wEnvs wInit 1 hterm).1,
    (lifecycle_termination wEnvs wInit 1 hterm).2.1⟩

/-- Split a character list at the first '.' (none when no dot occurs),
returning the parts before and after it. -/
def partitionDotAux : List Char → Option (List Char × List Char)
  | [] => none
  | c :: cs =>
      if c = '.' then some ([], cs)
      else
        match partitionDotAux cs with
        | none => none
        | some (pre, post) => some (c :: pre, post)

/-- target.partition('.'): the module name before the first dot and the
method name after it; when the target has no dot the method name is empty
(the separator component of Python's triple is discarded by the source). -/
def partitionDot (s : String) : String × String :=
  match partitionDotAux s.toList with
  | none => (s, "")
  | some (pre, post) => (String.mk pre, String.mk post)

/-- The membership test '.' in target. -/
def containsDot (s : String) : Bool := s.toList.contains '.'

/-- A task spawned through call_method_async: the module object it targets,
the method name and the keyword arguments handed to asyncio.create_task. -/
structure SpawnedCall where
  oid : ℕ
  methodname : String
  kwargs : List (String × PyVal)
  deriving DecidableEq, Repr

/-- exec_task_internal: split the target at the first dot, refuse modules
that are unknown or not ready (logging an error and returning Python None),
then either spawn the method through call_method_async and return the
constant False, or await the method directly and return its own result. -/
def exec_task_internal (reg : Registry) (target : String) (md : Metadata)
    (asynchronous : Bool) (kwargs : List (String × PyVal)) :
    PyVal × List SpawnedCall :=
  let modulename := (partitionDot target).1
  let methodname := (partitionDot target).2
  if is_ready_module reg modulename = false then (PyVal.none, [])
  else
    match odGet reg modulename with
    | none => (PyVal.none, [])
    | some m =>
        if asynchronous then
          (PyVal.bool false, [⟨m.oid, methodname, kwargs⟩])
        else (m.call_method methodname kwargs, [])

/-- exec_task invoked on the scheduler's home thread: the thread comparison
succeeds and the internal coroutine is awaited directly. -/
def exec_task_sameThread (reg : Registry) (target : String) (md : Metadata)
    (asynchronous : Bool) (kwargs : List (String × PyVal)) :
    PyVal × List SpawnedCall :=
  exec_task_internal reg target md asynchronous kwargs

/-- C10: calling exec_task_internal (or exec_task on the scheduler thread)
with asynchronous=true on a ready module schedules the method as one tracked
task and returns the constant False rather than the method's return value —
the result is the same whatever the method would return, so the method's
result is never observable through the asynchronous path — whereas with
asynchronous=false the method's own return value is returned. -/
theorem exec_task_async_returns_false (reg : Registry) (target : String)
    (md : Metadata) (kwargs : List (String × PyVal)) (m : Module)
    (hready : is_ready_module reg (partitionDot target).1 = true)
    (hget : odGet reg (partitionDot target).1 = some m) :
    (exec_task_internal reg target md true kwargs).1 = PyVal.bool false ∧
    (exec_task_internal reg target md true kwargs).2 =
      [⟨m.oid, (partitionDot target).2, kwargs⟩] ∧
    (exec_task_internal reg target md false kwargs).1 =
      m.call_method (partitionDot target).2 kwargs ∧
    exec_task_sameThread reg target md true kwargs =
      exec_task_internal reg target md true kwargs := by
  refine ⟨?_, ?_, ?_, rfl⟩ <;> simp [exec_task_internal, hready, hget]

/-- Module with a distinctive return value for the C10 witness. -/
def wModR : Module :=
  { oid := 9, is_ready := true, call_method := fun _ _ => PyVal.str "result" }

/-- Registry of the C10 witness. -/
def wRegR : Registry := [("m", wModR)]

/-- Witness for C10: on the target "m.run" the asynchronous path returns
False while the synchronous path returns the method's value "result". -/
theorem exec_task_async_returns_false_witness :
    is_ready_module wRegR (partitionDot "m.run").1 = true ∧
    (exec_task_internal wRegR "m.run" ⟨0, "x"⟩ true []).1 =
      PyVal.bool false ∧
    (exec_task_internal wRegR "m.run" ⟨0, "x"⟩ false []).1 =
      PyVal.str "result" :=
  ⟨rfl,
    (exec_task_async_returns_false wRegR "m.run" ⟨0, "x"⟩ [] wModR rfl rfl).1,
    (exec_task_async_returns_false wRegR "m.run" ⟨0, "x"⟩ []
        wModR rfl rfl).2.2.1⟩

/-- Modelled from the spec: a Queue Item is "a (target, metadata,
keyword-arguments) triple" produced by the enqueue/trigger operations and
consumed exactly once by the item processor. -/
structure Item where
  target : String
  metadata : Metadata
  kwargs : List (String × PyVal)

/-- One of a Queue Item's attribute values. -/
inductive ItemAttr where
  | target (s : String)
  | metadata (md : Metadata)
  | kwargs (kw : List (String × PyVal))

/-- Python attribute lookup on a Queue Item: accessing any name other than
the item's three attributes raises AttributeError. -/
def itemGetattr (it : Item) (name : String) : Except PyErr ItemAttr :=
  if name = "target" then .ok (.target it.target)
  else if name = "metadata" then .ok (.metadata it.metadata)
  else if name = "kwargs" then .ok (.kwargs it.kwargs)
  else .error (.attributeError name)

/-- Keyword binding of a call to
exec_task(self, target, metadata, asynchronous=False, **kwargs), given the
keyword names supplied at the call site: Python raises TypeError when the
required parameters target or metadata receive no argument. -/
def bindExecTaskKeywords (kwnames : List String) : Except PyErr Unit :=
  if kwnames.contains "target" = false then
    .error (.typeError "exec_task missing required argument target")
  else if kwnames.contains "metadata" = false then
    .error (.typeError "exec_task missing required argument metadata")
  else .ok ()

/-- A dispatch decision of the item processor. -/
inductive Dispatch where
  | execTaskAsync (target : String) (md : Metadata)
      (kwargs : List (String × PyVal))
  | broadcast (event : String) (md : Metadata)
      (kwargs : List (String × PyVal))
  deriving DecidableEq, Repr

/-- process_item: a target containing the qualifier separator '.' is
dispatched through exec_task, anything else through broadcast_event with the
item's metadata and keyword arguments.  The source spells the qualified
branch
  await self.exec_task(method=item.target, metadata=item.metadata,
                       asynchronous=True, **(item.kwargsargs)),
so evaluating item.kwargsargs precedes the call, and the call itself passes
the keyword method= while exec_task's required parameter is named target. -/
def process_item (it : Item) : Except PyErr Dispatch :=
  if containsDot it.target then
    match itemGetattr it "kwargsargs" with
    | .error e => .error e
    | .ok (.kwargs kw) =>
        match bindExecTaskKeywords
            (["method", "metadata", "asynchronous"] ++ kw.map Prod.fst) with
        | .error e => .error e
        | .ok _ => .ok (.execTaskAsync it.target it.metadata kw)
    | .ok _ => .error (.typeError "argument after ** must be a mapping")
  else .ok (.broadcast it.target it.metadata it.kwargs)

/-- C1 (evaluation of the code at the failing input): on a queue item whose
target contains the qualifier separator, process_item raises AttributeError
for the nonexistent attribute kwargsargs — it never dispatches the promised
asynchronous exec_task — while an item with an unqualified target is indeed
dispatched as a broadcast event carrying the item's metadata and keyword
arguments. -/
theorem process_item_qualified_raises :
    process_item ⟨"moda.run", ⟨0, "modulemanager"⟩, []⟩ =
      .error (.attributeError "kwargsargs") ∧
    process_item ⟨"ping", ⟨0, "modulemanager"⟩, [("x", PyVal.int 1)]⟩ =
      .ok (.broadcast "ping" ⟨0, "modulemanager"⟩ [("x", PyVal.int 1)]) :=
  ⟨rfl, rfl⟩

/-- The outcome of one threadsafe-wrapper call for its caller: a returned
value, an error raised into the caller, or a wait that can never end. -/
inductive TSResult where
  | value (v : PyVal)
  | raised (e : PyErr)
  | blocksForever
  deriving DecidableEq, Repr

/-- asyncio.get_running_loop(): the event loop running in the calling OS
thread (identified by a loop id), or RuntimeError when that thread runs
none.  It never returns a loop that is running in a different thread, so
from a thread other than the scheduler's home thread it can never return the
scheduler's loop. -/
def get_running_loop (callerLoop : Option ℕ) : Except PyErr ℕ :=
  match callerLoop with
  | none => .error (.runtimeError "no running event loop")
  | some l => .ok l

/-- A concurrent.futures.Future as produced by
asyncio.run_coroutine_threadsafe: it resolves with the coroutine's outcome
once the loop it was submitted to runs the coroutine. -/
structure CFuture where
  loop : ℕ
  coroResult : Except PyErr PyVal

/-- asyncio.run_coroutine_threadsafe(coro, loop): schedule the coroutine on
the given loop and return a future for its eventual outcome. -/
def run_coroutine_threadsafe (coroResult : Except PyErr PyVal) (loop : ℕ) :
    CFuture :=
  ⟨loop, coroResult⟩

/-- Future.result(): block the calling thread until the future resolves.
An event loop runs in exactly one OS thread; when the future's coroutine is
scheduled on the very loop that runs in the calling thread, blocking that
thread stops that loop, the coroutine never executes, and the wait never
ends.  Only a loop running in some other thread can still resolve the
future and let the call return the coroutine's result or failure. -/
def CFuture.result (f : CFuture) (callerLoop : Option ℕ) : TSResult :=
  if callerLoop = some f.loop then .blocksForever
  else
    match f.coroResult with
    | .ok v => .value v
    | .error e => .raised e

/-- Observable outcome of one call to a threadsafe wrapper: which event loop
the internal coroutine was handed to (none when nothing was submitted),
whether the caller blocked on the future's result, and what the call does
for the caller (a Python function without a return statement returns
None). -/
structure ThreadsafeCall where
  submittedTo : Option ℕ
  blockedOnResult : Bool
  result : TSResult
  deriving DecidableEq, Repr

/-- exec_task_threadsafe: pass asyncio.get_running_loop() — the calling
thread's loop, not the scheduler's — to run_coroutine_threadsafe, then
block on task.result() and return it.  callerLoop is the loop running in
the calling thread, if any. -/
def exec_task_threadsafe (internalResult : Except PyErr PyVal)
    (callerLoop : Option ℕ) : ThreadsafeCall :=
  match get_running_loop callerLoop with
  | .error e =>
      { submittedTo := none, blockedOnResult := false, result := .raised e }
  | .ok loop =>
      let task := run_coroutine_threadsafe internalResult loop
      { submittedTo := some loop, blockedOnResult := true,
        result := task.result callerLoop }

/-- broadcast_event_threadsafe: submit to asyncio.get_running_loop() — the
calling thread's loop — and return immediately; the future's result is
never requested and the function has no return statement. -/
def broadcast_event_threadsafe (internalResult : Except PyErr PyVal)
    (callerLoop : Option ℕ) : ThreadsafeCall :=
  match get_running_loop callerLoop with
  | .error e =>
      { submittedTo := none, blockedOnResult := false, result := .raised e }
  | .ok loop =>
      let _task := run_coroutine_threadsafe internalResult loop
      { submittedTo := some loop, blockedOnResult := false,
        result := .value PyVal.none }

/-- enqueue_task_threadsafe: the same shape as broadcast_event_threadsafe. -/
def enqueue_task_threadsafe (internalResult : Except PyErr PyVal)
    (callerLoop : Option ℕ) : ThreadsafeCall :=
  match get_running_loop callerLoop with
  | .error e =>
      { submittedTo := none, blockedOnResult := false, result := .raised e }
  | .ok loop =>
      let _task := run_coroutine_threadsafe internalResult loop
      { submittedTo := some loop, blockedOnResult := false,
        result := .value PyVal.none }

/-- trigger_event_threadsafe: the call expression passes args=args, but no
variable named args is in scope in that function (its parameters are target,
metadata and **kwargs, and the module defines no such global), so evaluating
the arguments raises NameError before get_running_loop is even consulted or
any coroutine is created. -/
def trigger_event_threadsafe (_internalResult : Except PyErr PyVal)
    (_callerLoop : Option ℕ) : ThreadsafeCall :=
  { submittedTo := none, blockedOnResult := false,
    result := .raised (.nameError "args") }

/-- The direct branch of every public form on the scheduler's home thread:
await the internal coroutine, no cross-thread handoff. -/
def awaitInternal (internalResult : Except PyErr PyVal) : ThreadsafeCall :=
  { submittedTo := none, blockedOnResult := false,
    result := match internalResult with
      | .ok v => .value v
      | .error e => .raised e }

/-- Public exec_task: on the scheduler's home thread the internal coroutine
is awaited directly, otherwise the threadsafe wrapper runs. -/
def exec_task_public (onHomeThread : Bool)
    (internalResult : Except PyErr PyVal) (callerLoop : Option ℕ) :
    ThreadsafeCall :=
  if onHomeThread then awaitInternal internalResult
  else exec_task_threadsafe internalResult callerLoop

/-- Public broadcast_event, with the same thread test. -/
def broadcast_event_public (onHomeThread : Bool)
    (internalResult : Except PyErr PyVal) (callerLoop : Option ℕ) :
    ThreadsafeCall :=
  if onHomeThread then awaitInternal internalResult
  else broadcast_event_threadsafe internalResult callerLoop

/-- Public enqueue_task, with the same thread test. -/
def enqueue_task_public (onHomeThread : Bool)
    (internalResult : Except PyErr PyVal) (callerLoop : Option ℕ) :
    ThreadsafeCall :=
  if onHomeThread then awaitInternal internalResult
  else enqueue_task_threadsafe internalResult callerLoop

/-- Public trigger_event: it first prefixes the event name with on_ and then
performs the same thread test. -/
def trigger_event_public (onHomeThread : Bool)
    (internalResult : Except PyErr PyVal) (callerLoop : Option ℕ) :
    ThreadsafeCall :=
  if onHomeThread then awaitInternal internalResult
  else trigger_event_threadsafe internalResult callerLoop

/-- C2 (evaluation of the code at the failing inputs): from a thread other
than the scheduler's home thread, no public operation ever submits the
internal coroutine to the scheduler's thread and blocks until its result is
available to return it.  With an internal result "r": when the calling
thread runs no event loop, exec_task, broadcast_event and enqueue_task raise
RuntimeError from get_running_loop before submitting anything; when the
calling thread runs its own loop 5, exec_task submits to loop 5 — the
caller's loop, never the scheduler's — and then blocks forever on
task.result() (the blocked thread is the one that would have to run the
coroutine), so "r" is never returned, while broadcast_event and enqueue_task
submit to loop 5 and return None without blocking; trigger_event raises
NameError for the undefined variable args in every case. -/
theorem threadsafe_wrappers_never_reach_scheduler :
    exec_task_public false (.ok (PyVal.str "r")) none =
      ⟨none, false, .raised (.runtimeError "no running event loop")⟩ ∧
    broadcast_event_public false (.ok (PyVal.str "r")) none =
      ⟨none, false, .raised (.runtimeError "no running event loop")⟩ ∧
    enqueue_task_public false (.ok (PyVal.str "r")) none =
      ⟨none, false, .raised (.runtimeError "no running event loop")⟩ ∧
    exec_task_public false (.ok (PyVal.str "r")) (some 5) =
      ⟨some 5, true, .blocksForever⟩ ∧
    broadcast_event_public false (.ok (PyVal.str "r")) (some 5) =
      ⟨some 5, false, .value PyVal.none⟩ ∧
    enqueue_task_public false (.ok (PyVal.str "r")) (some 5) =
      ⟨some 5, false, .value PyVal.none⟩ ∧
    trigger_event_public false (.ok (PyVal.str "r")) none =
      ⟨none, false, .raised (.nameError "args")⟩ ∧
    trigger_event_public false (.ok (PyVal.str "r")) (some 5) =
      ⟨none, false, .raised (.nameError "args")⟩ :=
  ⟨rfl, rfl, rfl, rfl, rfl, rfl, rfl, rfl⟩

end AsyncModules
